import Mathlib

/-!
# Verification of `kafka-avro-cli` (schema-directed encoding and delivery pipeline)

Shallow embedding of the core of the repository:

* `src/avro.rs`   — the JSON → Avro value mapper `to_avro` and its helpers,
* `src/registry.rs` — wire framing (`append_schema_id`) and HTTP status
  dispatch (`do_request`),
* `src/main.rs`   — the `produce` pipeline (map every line, encode every
  line, only then hand the batch to the producer),
* `src/producer.rs` — the delivery-acknowledgment collection loop.

Rust `Result` values become `Except`; a Rust `panic!`/`.unwrap()` on a `None`
or `Err` (a process abort) is modelled as the distinguished error
`MapErr.panic`, kept apart from the mapper's ordinary `Err(())` which is
modelled as `MapErr.err`.

`serde_json` numbers are modelled after the crate's three-variant storage
(`PosInt : u64`, `NegInt : i64`, `Float : f64`).  The numeric payload of a
JSON float is carried as its opaque 64-bit pattern (a `Nat`); the
`f64 → f32` rounding performed by Rust's `as` cast is not interpreted, since
no property below inspects the numeric content of a `Float`/`Double` value,
only which constructor is produced.
-/

/-- serde_json's number representation: `N::PosInt(u64)`, `N::NegInt(i64)`
(always negative), `N::Float(f64)` (payload kept as an opaque bit pattern). -/
inductive JsonNumber where
  | posInt (u : Nat)
  | negInt (i : Int)
  | float (bits : Nat)
deriving DecidableEq, Repr

/-- serde_json `Number::is_i64`: `PosInt` iff it fits `i64`, `NegInt` always,
`Float` never. -/
def JsonNumber.is_i64 : JsonNumber → Bool
  | .posInt u => decide (u ≤ 2 ^ 63 - 1)
  | .negInt _ => true
  | .float _ => false

/-- serde_json `Number::is_f64`: true exactly when the number is stored as a
float (the source JSON token had a fraction or exponent). -/
def JsonNumber.is_f64 : JsonNumber → Bool
  | .float _ => true
  | _ => false

/-- serde_json `Number::as_i64` restricted to numbers with `is_i64` true. -/
def JsonNumber.i64 : JsonNumber → Int
  | .posInt u => (u : Int)
  | .negInt i => i
  | .float _ => 0

/-- `serde_json::Value`.  Objects are association lists in the map's
iteration order (serde_json's default `BTreeMap` iterates keys in sorted
order; only the order as seen by `.iter()` matters here). -/
inductive Json where
  | null
  | bool (b : Bool)
  | num (n : JsonNumber)
  | str (s : String)
  | arr (items : List Json)
  | obj (entries : List (String × Json))

/-- `avro_rs::schema::Schema`, restricted to the variants `to_avro`
distinguishes.  A record keeps its ordered `(name, field schema)` list; the
`lookup : HashMap<String, usize>` of the source is recovered by
`fieldLookup` below. -/
inductive Schema where
  | nullS
  | booleanS
  | intS
  | longS
  | floatS
  | doubleS
  | stringS
  | arrayS (items : Schema)
  | mapS (values : Schema)
  | recordS (fields : List (String × Schema))
  | enumS (symbols : List String)
  | unionS (branches : List Schema)

/-- `avro_rs::types::Value`, restricted likewise.  `float`/`double` carry the
source number's opaque bit pattern (see the module comment). -/
inductive AvroValue where
  | null
  | boolean (b : Bool)
  | int (i : Int)
  | long (i : Int)
  | float (bits : Nat)
  | double (bits : Nat)
  | str (s : String)
  | array (items : List AvroValue)
  | map (entries : List (String × AvroValue))
  | record (fields : List (String × AvroValue))
  | union (v : AvroValue)

/-- Outcome of `to_avro`: the source returns `Result<Value, ()>`, but several
arms `.unwrap()` an inner `Result`/`Option`, which aborts the process.  `err`
is the source's `Err(())`; `panic` is a process abort. -/
inductive MapErr where
  | err
  | panic
deriving DecidableEq, Repr

/-- `avro_rs` `SchemaKind`, the key type of a union's `variant_index`. -/
inductive SchemaKind where
  | nullK | booleanK | intK | longK | floatK | doubleK | stringK
  | arrayK | mapK | recordK | enumK | unionK
deriving DecidableEq, Repr

/-- `SchemaKind::from(&Schema)`. -/
def Schema.kind : Schema → SchemaKind
  | .nullS => .nullK
  | .booleanS => .booleanK
  | .intS => .intK
  | .longS => .longK
  | .floatS => .floatK
  | .doubleS => .doubleK
  | .stringS => .stringK
  | .arrayS _ => .arrayK
  | .mapS _ => .mapK
  | .recordS _ => .recordK
  | .enumS _ => .enumK
  | .unionS _ => .unionK

/-- `SchemaKind::from(&Value)` for the prototype values `to_avro` passes to
`UnionSchema::find_schema`. -/
def AvroValue.kind : AvroValue → SchemaKind
  | .null => .nullK
  | .boolean _ => .booleanK
  | .int _ => .intK
  | .long _ => .longK
  | .float _ => .floatK
  | .double _ => .doubleK
  | .str _ => .stringK
  | .array _ => .arrayK
  | .map _ => .mapK
  | .record _ => .recordK
  | .union _ => .unionK

/-- `UnionSchema::find_schema`: look the value's `SchemaKind` up in the
union's variant index.  A parsed union holds at most one branch per kind, so
the index maps a kind to the unique branch of that kind; on a list this is
the first (and only) branch whose kind matches. -/
def find_schema (branches : List Schema) (v : AvroValue) : Option Schema :=
  branches.find? (fun s => s.kind = v.kind)

/-- The record schema's `lookup` map followed by `fields.get(..)`: the field
schema registered under a name (field names of a parsed record are unique). -/
def fieldLookup : List (String × Schema) → String → Option Schema
  | [], _ => none
  | (n, s) :: rest, key => if n = key then some s else fieldLookup rest key

/-- Rust `n.as_f64().unwrap() as i32` applied to an `i64`-valued serde_json
number.  `i64 → f64` rounds to nearest (exact for `|i| < 2^53`), and the
float-to-int `as` cast truncates toward zero and saturates at the `i32`
bounds; the composition on `i64` inputs is exactly clamping to
`[-2^31, 2^31 - 1]` (in-range values pass through unchanged, out-of-range
values saturate — rounding can never move a value across the `i32` bounds). -/
def i64_as_f64_as_i32 (i : Int) : Int :=
  max (-(2 ^ 31)) (min (2 ^ 31 - 1) i)

theorem find_schema_sizeOf {branches : List Schema} {v : AvroValue} {s : Schema}
    (h : find_schema branches v = some s) : sizeOf s < sizeOf branches := by
  induction branches with
  | nil => simp [find_schema] at h
  | cons b rest ih =>
    rw [find_schema, List.find?] at h
    by_cases hb : b.kind = v.kind
    · simp [hb] at h
      subst h
      simp
      omega
    · simp [hb] at h
      have := ih (by rw [find_schema]; exact h)
      simp
      omega

theorem fieldLookup_sizeOf {fields : List (String × Schema)} {key : String} {s : Schema}
    (h : fieldLookup fields key = some s) : sizeOf s < sizeOf fields := by
  induction fields with
  | nil => simp [fieldLookup] at h
  | cons p rest ih =>
    obtain ⟨n, fs⟩ := p
    rw [fieldLookup] at h
    by_cases hn : n = key
    · simp [hn] at h
      subst h
      simp
      omega
    · simp [hn] at h
      have := ih h
      simp
      omega

section ExceptEval

variable {ε α β : Type}

@[simp] theorem except_ok_bind (a : α) (f : α → Except ε β) :
    (Except.ok a : Except ε α) >>= f = f a := rfl

@[simp] theorem except_error_bind (e : ε) (f : α → Except ε β) :
    (Except.error e : Except ε α) >>= f = .error e := rfl

@[simp] theorem except_map_ok (g : α → β) (a : α) :
    (Except.ok a : Except ε α).map g = .ok (g a) := rfl

@[simp] theorem except_map_error (g : α → β) (e : ε) :
    (Except.error e : Except ε α).map g = .error e := rfl

@[simp] theorem except_fmap_ok (g : α → β) (a : α) :
    g <$> (Except.ok a : Except ε α) = .ok (g a) := rfl

@[simp] theorem except_fmap_error (g : α → β) (e : ε) :
    g <$> (Except.error e : Except ε α) = .error e := rfl

@[simp] theorem except_mapError_ok {ε' : Type} (g : ε → ε') (a : α) :
    (Except.ok a : Except ε α).mapError g = .ok a := rfl

@[simp] theorem except_mapError_error {ε' : Type} (g : ε → ε') (e : ε) :
    (Except.error e : Except ε α).mapError g = .error (g e) := rfl

@[simp] theorem except_pure (a : α) : (pure a : Except ε α) = .ok a := rfl

@[simp] theorem mapM_except_nil (f : α → Except ε β) : List.mapM f [] = .ok [] := rfl

@[simp] theorem mapM_except_cons (f : α → Except ε β) (a : α) (l : List α) :
    List.mapM f (a :: l) =
      f a >>= fun b => (List.mapM f l).map (fun bs => b :: bs) := by
  rw [List.mapM_cons]
  cases f a with
  | error e => rfl
  | ok b =>
    simp only [except_ok_bind]
    cases List.mapM f l with
    | error e => rfl
    | ok bs => rfl

@[simp] theorem mapM_loop_except_nil (f : α → Except ε β) (acc : List β) :
    List.mapM.loop f [] acc = .ok acc.reverse := rfl

@[simp] theorem mapM_loop_except_cons (f : α → Except ε β) (a : α) (l : List α) (acc : List β) :
    List.mapM.loop f (a :: l) acc = f a >>= fun b => List.mapM.loop f l (b :: acc) := rfl

end ExceptEval

@[simp] theorem find_schema_nil (v : AvroValue) : find_schema [] v = none := rfl

@[simp] theorem find_schema_cons (b : Schema) (rest : List Schema) (v : AvroValue) :
    find_schema (b :: rest) v =
      if b.kind = v.kind then some b else find_schema rest v := by
  by_cases h : b.kind = v.kind <;> simp [find_schema, List.find?, h]

/-- `to_avro` (src/avro.rs, lines 103–188), the JSON → Avro value mapper. -/
def to_avro (json : Json) (schema : Schema) : Except MapErr AvroValue :=
  match schema, json with
  | .nullS, .null => .ok .null
  | .booleanS, .bool b => .ok (.boolean b)
  | .intS, .num n =>
    if n.is_i64 then .ok (.int (i64_as_f64_as_i32 n.i64)) else .error .err
  | .longS, .num n =>
    if n.is_i64 then .ok (.long n.i64) else .error .err
  | .floatS, .num n =>
    if n.is_f64 then
      match n with
      | .float bits => .ok (.float bits)
      | _ => .error .err
    else .error .err
  | .doubleS, .num n =>
    if n.is_f64 then
      match n with
      | .float bits => .ok (.double bits)
      | _ => .error .err
    else .error .err
  | .stringS, .str s => .ok (.str s)
  | .arrayS el, .arr vs =>
    -- `vs.iter().map(|v| to_avro(v, el).unwrap()).collect()`:
    -- a failing element is `.unwrap()`ed, i.e. a panic.
    (vs.mapM (fun v => (to_avro v el).mapError (fun _ => MapErr.panic))).map .array
  | .mapS el, .obj entries =>
    (entries.mapM (fun kv =>
        (((to_avro kv.2 el).mapError (fun _ => MapErr.panic)).map (fun a => (kv.1, a)) :
          Except MapErr (String × AvroValue)))).map .map
  | .recordS fields, .obj entries =>
    -- iterates the *JSON object's* entries; `lookup.get(key).unwrap()` and the
    -- inner `to_avro(..).unwrap()` both panic on failure.
    (entries.mapM (fun kv =>
        (match hfl : fieldLookup fields kv.1 with
          | none => Except.error MapErr.panic
          | some fs =>
            ((to_avro kv.2 fs).mapError (fun _ => MapErr.panic)).map (fun a => (kv.1, a)) :
          Except MapErr (String × AvroValue)))).map .record
  | .enumS _, .str _ => .error .err
  | .unionS branches, j =>
    match j with
    | .null => .ok (.union .null)
    | .bool b => .ok (.union (.boolean b))
    | .num n =>
      -- `find_schema(Long).or_else(|| find_schema(Int)).unwrap()`, resp.
      -- `find_schema(Double).or_else(|| find_schema(Float)).unwrap()`
      if n.is_i64 then
        match h1 : find_schema branches (.long 0) with
        | some s => to_avro j s
        | none =>
          match h2 : find_schema branches (.int 0) with
          | some s => to_avro j s
          | none => .error .panic
      else if n.is_f64 then
        match h1 : find_schema branches (.double 0) with
        | some s => to_avro j s
        | none =>
          match h2 : find_schema branches (.float 0) with
          | some s => to_avro j s
          | none => .error .panic
      else .error .err
    | .str _ =>
      match h1 : find_schema branches (.str "") with
      | some s => to_avro j s
      | none => .error .panic
    | .arr _ =>
      match h1 : find_schema branches (.array []) with
      | some s => to_avro j s
      | none => .error .panic
    | .obj _ =>
      match h1 : find_schema branches (.record []) with
      | some s => to_avro j s
      | none =>
        match h2 : find_schema branches (.map []) with
        | some s => to_avro j s
        | none => .error .panic
  | _, _ => .error .err
termination_by sizeOf schema
decreasing_by
  all_goals simp_wf
  all_goals first
  | omega
  | (have hlt := fieldLookup_sizeOf hfl; omega)
  | (have hlt := find_schema_sizeOf h1; omega)
  | (have hlt := find_schema_sizeOf h2; omega)

/-!
## Evaluation interface for `to_avro`

The definition above names its match discriminants for the termination
proof, which makes those matches dependent and hence opaque to `simp`.
The lemmas below restate each arm with plain (non-dependent) matches; all
further proofs go through them.
-/

@[simp] theorem to_avro_nullS : to_avro .null .nullS = .ok .null := by rw [to_avro]

@[simp] theorem to_avro_booleanS (b : Bool) : to_avro (.bool b) .booleanS = .ok (.boolean b) := by
  rw [to_avro]

@[simp] theorem to_avro_intS (n : JsonNumber) :
    to_avro (.num n) .intS =
      if n.is_i64 then .ok (.int (i64_as_f64_as_i32 n.i64)) else .error .err := by
  rw [to_avro]

@[simp] theorem to_avro_longS (n : JsonNumber) :
    to_avro (.num n) .longS =
      if n.is_i64 then .ok (.long n.i64) else .error .err := by
  rw [to_avro]

@[simp] theorem to_avro_floatS_float (bits : Nat) :
    to_avro (.num (.float bits)) .floatS = .ok (.float bits) := by
  rw [to_avro]; rfl

@[simp] theorem to_avro_floatS_not_f64 {n : JsonNumber} (h : n.is_f64 = false) :
    to_avro (.num n) .floatS = .error .err := by
  cases n <;> first
  | (rw [to_avro] <;> simp_all [JsonNumber.is_f64])
  | simp [JsonNumber.is_f64] at h

@[simp] theorem to_avro_doubleS_float (bits : Nat) :
    to_avro (.num (.float bits)) .doubleS = .ok (.double bits) := by
  rw [to_avro]; rfl

@[simp] theorem to_avro_doubleS_not_f64 {n : JsonNumber} (h : n.is_f64 = false) :
    to_avro (.num n) .doubleS = .error .err := by
  cases n <;> first
  | (rw [to_avro] <;> simp_all [JsonNumber.is_f64])
  | simp [JsonNumber.is_f64] at h

@[simp] theorem to_avro_stringS (s : String) : to_avro (.str s) .stringS = .ok (.str s) := by
  rw [to_avro]

@[simp] theorem to_avro_arrayS (el : Schema) (vs : List Json) :
    to_avro (.arr vs) (.arrayS el) =
      (vs.mapM (fun v => (to_avro v el).mapError (fun _ => MapErr.panic))).map .array := by
  rw [to_avro]

@[simp] theorem to_avro_mapS (el : Schema) (entries : List (String × Json)) :
    to_avro (.obj entries) (.mapS el) =
      (entries.mapM (fun kv =>
        (((to_avro kv.2 el).mapError (fun _ => MapErr.panic)).map (fun a => (kv.1, a)) :
          Except MapErr (String × AvroValue)))).map .map := by
  rw [to_avro]

@[simp] theorem to_avro_recordS (fields : List (String × Schema)) (entries : List (String × Json)) :
    to_avro (.obj entries) (.recordS fields) =
      (entries.mapM (fun kv =>
        (match fieldLookup fields kv.1 with
          | none => Except.error MapErr.panic
          | some fs =>
            ((to_avro kv.2 fs).mapError (fun _ => MapErr.panic)).map (fun a => (kv.1, a)) :
          Except MapErr (String × AvroValue)))).map .record := by
  rw [to_avro]
  have : (fun (kv : String × Json) =>
      (match hfl : fieldLookup fields kv.1 with
        | none => Except.error MapErr.panic
        | some fs =>
          ((to_avro kv.2 fs).mapError (fun _ => MapErr.panic)).map (fun a => (kv.1, a)) :
        Except MapErr (String × AvroValue))) =
      (fun (kv : String × Json) =>
      (match fieldLookup fields kv.1 with
        | none => Except.error MapErr.panic
        | some fs =>
          ((to_avro kv.2 fs).mapError (fun _ => MapErr.panic)).map (fun a => (kv.1, a)) :
        Except MapErr (String × AvroValue))) := by
    funext kv
    cases hfl : fieldLookup fields kv.1 <;> rfl
  rw [this]

@[simp] theorem to_avro_enumS (symbols : List String) (s : String) :
    to_avro (.str s) (.enumS symbols) = .error .err := by
  rw [to_avro]

@[simp] theorem to_avro_unionS_null (branches : List Schema) :
    to_avro .null (.unionS branches) = .ok (.union .null) := by
  rw [to_avro]

@[simp] theorem to_avro_unionS_bool (branches : List Schema) (b : Bool) :
    to_avro (.bool b) (.unionS branches) = .ok (.union (.boolean b)) := by
  rw [to_avro]

@[simp] theorem to_avro_unionS_num (branches : List Schema) (n : JsonNumber) :
    to_avro (.num n) (.unionS branches) =
      if n.is_i64 then
        match find_schema branches (.long 0) with
        | some s => to_avro (.num n) s
        | none =>
          match find_schema branches (.int 0) with
          | some s => to_avro (.num n) s
          | none => .error .panic
      else if n.is_f64 then
        match find_schema branches (.double 0) with
        | some s => to_avro (.num n) s
        | none =>
          match find_schema branches (.float 0) with
          | some s => to_avro (.num n) s
          | none => .error .panic
      else .error .err := by
  rw [to_avro]
  by_cases hi : n.is_i64
  · simp only [hi]
    cases h1 : find_schema branches (.long 0)
    · cases h2 : find_schema branches (.int 0) <;> rfl
    · rfl
  · by_cases hf : n.is_f64
    · simp only [hi, hf]
      cases h1 : find_schema branches (.double 0)
      · cases h2 : find_schema branches (.float 0) <;> rfl
      · rfl
    · simp only [hi, hf]
      rfl

@[simp] theorem to_avro_unionS_str (branches : List Schema) (s : String) :
    to_avro (.str s) (.unionS branches) =
      match find_schema branches (.str "") with
      | some sch => to_avro (.str s) sch
      | none => .error .panic := by
  rw [to_avro]
  cases h1 : find_schema branches (.str "") <;> rfl

@[simp] theorem to_avro_unionS_arr (branches : List Schema) (vs : List Json) :
    to_avro (.arr vs) (.unionS branches) =
      match find_schema branches (.array []) with
      | some sch => to_avro (.arr vs) sch
      | none => .error .panic := by
  rw [to_avro]
  cases h1 : find_schema branches (.array []) <;> rfl

@[simp] theorem to_avro_unionS_obj (branches : List Schema) (entries : List (String × Json)) :
    to_avro (.obj entries) (.unionS branches) =
      match find_schema branches (.record []) with
      | some sch => to_avro (.obj entries) sch
      | none =>
        match find_schema branches (.map []) with
        | some sch => to_avro (.obj entries) sch
        | none => .error .panic := by
  rw [to_avro]
  cases h1 : find_schema branches (.record []) <;> [skip; rfl]
  cases h2 : find_schema branches (.map []) <;> rfl

/-!
## Wire framing and registry client (src/registry.rs)
-/

/-- `u32::to_be_bytes`: the four big-endian bytes of a 32-bit id. -/
def u32_to_be_bytes (id : Nat) : List Nat :=
  [id / 2 ^ 24 % 256, id / 2 ^ 16 % 256, id / 2 ^ 8 % 256, id % 256]

/-- Big-endian value of a byte string (used only to state that the frame
really carries `id`). -/
def beValue (bs : List Nat) : Nat :=
  bs.foldl (fun acc b => acc * 256 + b) 0

/-- `append_schema_id` (src/registry.rs, lines 160–166): a `0x00` magic byte,
the 4-byte big-endian schema id, then the unframed Avro body. -/
def append_schema_id (id : Nat) (encoded_bytes : List Nat) : List Nat :=
  0 :: u32_to_be_bytes id ++ encoded_bytes

/-- `RegistryError` (src/registry.rs, lines 17–33), with the `Io`/`Tls`
payloads elided. -/
inductive RegistryError where
  | io
  | tls
  | conflict
  | invalid
  | notFound
  | internal (body : String)
  | registryInternal

/-- What `do_request` inspects of a `ureq` response: whether the response is
synthetic (a transport-level failure, carrying its `body_text()`), the HTTP
status, and the body handed to the JSON deserializer. -/
structure HttpResponse where
  synthetic_error : Option String
  status : Nat
  body : String

/-- `RegistryClient::do_request` (src/registry.rs, lines 80–118), the part
after the request is issued: synthetic errors become `Internal(body)`,
then the status dispatch, then body deserialization (external serde;
a parameter here, its failure mapped to `Io`). -/
def do_request {T : Type} (resp : HttpResponse)
    (deserialize : String → Except Unit T) : Except RegistryError T :=
  match resp.synthetic_error with
  | some errBody => .error (.internal errBody)
  | none =>
    match resp.status with
    | 404 => .error .notFound
    | 422 => .error .invalid
    | 409 => .error .conflict
    | 500 => .error .registryInternal
    | _ => (deserialize resp.body).mapError (fun _ => .io)

/-!
## Produce pipeline (src/main.rs) and delivery collection (src/producer.rs)

The Avro binary encoder (`avro_rs::to_avro_datum`) and the broker client are
external collaborators; they enter as parameters (`enc`, `send`, and the
stream of delivery outcomes).
-/

/-- `CliError` (src/error.rs), restricted to the variants the embedded
pipeline can produce.  External error payloads are opaque (`Nat`). -/
inductive CliError where
  | mapping (e : MapErr)
  | avro (e : Nat)
  | kafka (e : Nat)

/-- `jsons_to_avro` (src/main.rs, lines 73–78): map every parsed line against
the schema, collected into one `Result` (the first failure short-circuits). -/
def jsons_to_avro (jsons : List Json) (schema : Schema) : Except MapErr (List AvroValue) :=
  jsons.mapM (fun j => to_avro j schema)

/-- The `encode` helper of src/main.rs (lines 62–71): encode every mapped
value with the chosen codec, collected into one `Result`. -/
def encode_batch (avros : List AvroValue) (enc : AvroValue → Except Nat (List Nat)) :
    Except Nat (List (List Nat)) :=
  avros.mapM enc

/-- The Avro branch of `produce` (src/main.rs, lines 36–59): the whole batch
is mapped, then the whole batch is encoded; only an `.ok` batch is ever
handed to `Producer::produce`. -/
def produce_pipeline (jsons : List Json) (schema : Schema)
    (enc : AvroValue → Except Nat (List Nat)) : Except CliError (List (List Nat)) :=
  match jsons_to_avro jsons schema with
  | .error e => .error (.mapping e)
  | .ok avros =>
    match encode_batch avros enc with
    | .error e => .error (.avro e)
    | .ok msgs => .ok msgs

/-- The payloads a run of `produce` hands to the broker client:
`Producer::produce(ctx, encoded)` is reached only when the pipeline produced
`.ok encoded`; a mapping or encoding failure returns first, sending nothing. -/
def messages_sent (jsons : List Json) (schema : Schema)
    (enc : AvroValue → Except Nat (List Nat)) : List (List Nat) :=
  match produce_pipeline jsons schema enc with
  | .error _ => []
  | .ok msgs => msgs

/-- A delivery outcome as seen by `BlockingProducerContext::delivery`:
`Ok(())` or a `KafkaError` (opaque code). -/
abbrev DeliveryOutcome := Except Nat Unit

/-- `(0..payloads.len()).map(|_| ctx_receiver.recv().unwrap()).collect::<Result<(), _>>()`
(src/producer.rs, lines 33–35).  Rust iterators are lazy and
`collect::<Result<..>>` stops consuming at the first `Err`, so the loop
performs one `recv` per demanded outcome *until* the first negative one.
Returns the collected result paired with the number of `recv` calls
performed; `none` models a `recv` that blocks forever because fewer
outcomes than demanded ever arrive on the channel. -/
def collect_acks : Nat → List DeliveryOutcome → Option (Except Nat Unit × Nat)
  | 0, _ => some (.ok (), 0)
  | _ + 1, [] => none
  | n + 1, o :: rest =>
    match o with
    | .error e => some (.error e, 1)
    | .ok _ => (collect_acks n rest).map (fun rc => (rc.1, rc.2 + 1))

/-- `Producer::produce` (src/producer.rs, lines 15–36): enqueue every payload
(`?` propagates the first send-time rejection before any waiting), then
block collecting delivery outcomes, `payloads.len()` of them demanded. -/
def producer_produce (payloads : List (List Nat)) (send : List Nat → Except Nat Unit)
    (acks : List DeliveryOutcome) : Option (Except Nat Unit × Nat) :=
  match payloads.mapM (fun p => send p) with
  | .error e => some (.error e, 0)
  | .ok _ => collect_acks payloads.length acks

/-!
## General lemmas about the embedding
-/

theorem mapM_error_of_mem {α β ε : Type} {f : α → Except ε β} {l : List α} {x : α} {e : ε}
    (hx : x ∈ l) (hfx : f x = .error e) : ∃ e', List.mapM f l = .error e' := by
  induction l with
  | nil => cases hx
  | cons a rest ih =>
    rw [mapM_except_cons]
    rcases List.mem_cons.mp hx with h | h
    · subst h
      rw [hfx]
      exact ⟨e, rfl⟩
    · cases ha : f a with
      | error e' => exact ⟨e', rfl⟩
      | ok b =>
        obtain ⟨e', he'⟩ := ih h
        rw [except_ok_bind, he']
        exact ⟨e', rfl⟩

theorem find_schema_eq_of_mem {branches : List Schema} {t : Schema} {v : AvroValue}
    (hk : t.kind = v.kind) (huniq : ∀ s : Schema, s.kind = v.kind → s = t)
    (hm : t ∈ branches) : find_schema branches v = some t := by
  induction branches with
  | nil => cases hm
  | cons b rest ih =>
    rw [find_schema_cons]
    by_cases hb : b.kind = v.kind
    · rw [if_pos hb, huniq b hb]
    · rw [if_neg hb]
      rcases List.mem_cons.mp hm with h | h
      · exact absurd (h ▸ hk) hb
      · exact ih h

theorem find_schema_eq_none_of_not_mem {branches : List Schema} {t : Schema} {v : AvroValue}
    (huniq : ∀ s : Schema, s.kind = v.kind → s = t)
    (hm : t ∉ branches) : find_schema branches v = none := by
  induction branches with
  | nil => rfl
  | cons b rest ih =>
    rw [find_schema_cons]
    by_cases hb : b.kind = v.kind
    · exact absurd (huniq b hb ▸ List.mem_cons_self b rest) hm
    · exact if_neg hb ▸ ih (fun h => hm (List.mem_cons_of_mem b h))

theorem kind_longK_iff (s : Schema) : s.kind = SchemaKind.longK ↔ s = .longS := by
  cases s <;> simp [Schema.kind]

theorem kind_intK_iff (s : Schema) : s.kind = SchemaKind.intK ↔ s = .intS := by
  cases s <;> simp [Schema.kind]

theorem kind_doubleK_iff (s : Schema) : s.kind = SchemaKind.doubleK ↔ s = .doubleS := by
  cases s <;> simp [Schema.kind]

theorem kind_floatK_iff (s : Schema) : s.kind = SchemaKind.floatK ↔ s = .floatS := by
  cases s <;> simp [Schema.kind]

theorem kind_stringK_iff (s : Schema) : s.kind = SchemaKind.stringK ↔ s = .stringS := by
  cases s <;> simp [Schema.kind]

/-- The per-entry step of the record arm of `to_avro` (named for reasoning;
it is definitionally the lambda in `to_avro_recordS`). -/
def record_entry (fields : List (String × Schema)) (kv : String × Json) :
    Except MapErr (String × AvroValue) :=
  match fieldLookup fields kv.1 with
  | none => Except.error MapErr.panic
  | some fs =>
    ((to_avro kv.2 fs).mapError (fun _ => MapErr.panic)).map (fun a => (kv.1, a))

theorem to_avro_recordS_entry (fields : List (String × Schema))
    (entries : List (String × Json)) :
    to_avro (.obj entries) (.recordS fields) =
      (entries.mapM (record_entry fields)).map .record :=
  to_avro_recordS fields entries

theorem record_entry_ok {fields : List (String × Schema)} {kv : String × Json}
    {p : String × AvroValue} (h : record_entry fields kv = .ok p) :
    p.1 = kv.1 ∧ (fieldLookup fields kv.1).isSome := by
  unfold record_entry at h
  cases hfl : fieldLookup fields kv.1 with
  | none => rw [hfl] at h; cases h
  | some fs =>
    rw [hfl] at h
    have h' : ((to_avro kv.2 fs).mapError (fun _ => MapErr.panic)).map
        (fun a => (kv.1, a)) = .ok p := h
    cases ha : to_avro kv.2 fs with
    | error e => rw [ha] at h'; cases h'
    | ok a =>
      rw [ha] at h'
      cases h'
      exact ⟨rfl, rfl⟩

theorem record_mapM_keys {fields : List (String × Schema)} :
    ∀ {entries : List (String × Json)} {ps : List (String × AvroValue)},
    entries.mapM (record_entry fields) = .ok ps →
    ps.map Prod.fst = entries.map Prod.fst ∧
      ∀ kv ∈ entries, (fieldLookup fields kv.1).isSome := by
  intro entries
  induction entries with
  | nil =>
    intro ps h
    cases h
    exact ⟨rfl, by intro kv hkv; cases hkv⟩
  | cons a rest ih =>
    intro ps h
    rw [mapM_except_cons] at h
    cases ha : record_entry fields a with
    | error e => rw [ha] at h; cases h
    | ok p =>
      rw [ha] at h
      rw [except_ok_bind] at h
      cases hrest : rest.mapM (record_entry fields) with
      | error e => rw [hrest] at h; cases h
      | ok tail =>
        rw [hrest] at h
        cases h
        obtain ⟨hp1, hp2⟩ := record_entry_ok ha
        obtain ⟨ih1, ih2⟩ := ih hrest
        constructor
        · simp [ih1, hp1]
        · intro kv hkv
          rcases List.mem_cons.mp hkv with h | h
          · exact h ▸ hp2
          · exact ih2 kv h

@[simp] theorem to_avro_str_intS (s : String) : to_avro (.str s) .intS = .error .err := by
  rw [to_avro] <;> simp

theorem mapM_unit_ok {α ε : Type} {f : α → Except ε Unit} {l : List α}
    (h : ∀ x ∈ l, f x = .ok ()) : l.mapM f = .ok (l.map (fun _ => ())) := by
  induction l with
  | nil => rfl
  | cons a rest ih =>
    rw [mapM_except_cons, h a (List.mem_cons_self a rest), except_ok_bind,
      ih (fun x hx => h x (List.mem_cons_of_mem a hx))]
    rfl

theorem collect_acks_all_ok :
    ∀ (n : Nat) (acks : List DeliveryOutcome), n ≤ acks.length →
    (∀ o ∈ acks.take n, o = .ok ()) →
    collect_acks n acks = some (.ok (), n) := by
  intro n
  induction n with
  | zero => intro acks _ _; rfl
  | succ m ih =>
    intro acks hlen hok
    cases acks with
    | nil => simp at hlen
    | cons o rest =>
      have ho : o = .ok () := hok o (by simp)
      subst ho
      rw [collect_acks]
      rw [ih rest (by simpa using hlen)
        (fun o' ho' => hok o' (by simp [List.take_succ_cons]; right; exact ho'))]
      rfl

theorem collect_acks_first_error :
    ∀ (k n : Nat) (acks : List DeliveryOutcome) (e : Nat), k < n →
    (∀ o ∈ acks.take k, o = .ok ()) →
    acks.get? k = some (.error e) →
    collect_acks n acks = some (.error e, k + 1) := by
  intro k
  induction k with
  | zero =>
    intro n acks e hk _ hget
    cases acks with
    | nil => simp at hget
    | cons o rest =>
      simp at hget
      subst hget
      cases n with
      | zero => omega
      | succ m => rfl
  | succ j ih =>
    intro n acks e hk hok hget
    cases acks with
    | nil => simp at hget
    | cons o rest =>
      have ho : o = .ok () := hok o (by simp [List.take_succ_cons])
      subst ho
      cases n with
      | zero => omega
      | succ m =>
        rw [collect_acks]
        rw [ih m rest e (by omega)
          (fun o' ho' => hok o' (by simp [List.take_succ_cons]; right; exact ho'))
          (by simpa using hget)]
        rfl

/-!
## Claims
-/

/-- C1, counterexample: the spec's single priority list Long, Int, Float,
Double is not what the code implements.  For the union `[float, double]` and
the float-represented number with bit pattern 17, the first branch present
in that list is Float, yet `to_avro` selects the Double branch
(`find_schema(Double).or_else(find_schema(Float))` for `is_f64` numbers). -/
theorem C1_counterexample :
    to_avro (.num (.float 17)) (.unionS [.floatS, .doubleS]) = .ok (.double 17) ∧
    to_avro (.num (.float 17)) (.unionS [.floatS, .doubleS]) ≠
      to_avro (.num (.float 17)) .floatS := by
  constructor
  · simp [JsonNumber.is_i64, JsonNumber.is_f64, Schema.kind, AvroValue.kind]
  · simp [JsonNumber.is_i64, JsonNumber.is_f64, Schema.kind, AvroValue.kind]

/-- C1, amended: for an `i64`-represented JSON number the mapper tries Long
then Int (never falling through to Float/Double); for an `f64`-represented
number it tries Double then Float (Double before Float, not Float before
Double).  In particular a union containing Long binds every integral JSON
number to the Long branch, regardless of declaration order. -/
theorem C1_union_number_priority (branches : List Schema) (n : JsonNumber) (bits : Nat) :
    (n.is_i64 = true → Schema.longS ∈ branches →
      to_avro (.num n) (.unionS branches) = .ok (.long n.i64)) ∧
    (n.is_i64 = true → Schema.longS ∉ branches → Schema.intS ∈ branches →
      to_avro (.num n) (.unionS branches) = .ok (.int (i64_as_f64_as_i32 n.i64))) ∧
    (Schema.doubleS ∈ branches →
      to_avro (.num (.float bits)) (.unionS branches) = .ok (.double bits)) ∧
    (Schema.doubleS ∉ branches → Schema.floatS ∈ branches →
      to_avro (.num (.float bits)) (.unionS branches) = .ok (.float bits)) := by
  refine ⟨?_, ?_, ?_, ?_⟩
  · intro hi hmem
    have hfind := find_schema_eq_of_mem (t := Schema.longS) (v := .long 0) rfl
      (fun s hs => (kind_longK_iff s).mp hs) hmem
    simp [hfind, hi]
  · intro hi hnot hmem
    have hnone := find_schema_eq_none_of_not_mem (t := Schema.longS) (v := .long 0)
      (fun s hs => (kind_longK_iff s).mp hs) hnot
    have hfind := find_schema_eq_of_mem (t := Schema.intS) (v := .int 0) rfl
      (fun s hs => (kind_intK_iff s).mp hs) hmem
    simp [hnone, hfind, hi]
  · intro hmem
    have hfind := find_schema_eq_of_mem (t := Schema.doubleS) (v := .double 0) rfl
      (fun s hs => (kind_doubleK_iff s).mp hs) hmem
    simp [hfind, JsonNumber.is_i64, JsonNumber.is_f64]
  · intro hnot hmem
    have hnone := find_schema_eq_none_of_not_mem (t := Schema.doubleS) (v := .double 0)
      (fun s hs => (kind_doubleK_iff s).mp hs) hnot
    have hfind := find_schema_eq_of_mem (t := Schema.floatS) (v := .float 0) rfl
      (fun s hs => (kind_floatK_iff s).mp hs) hmem
    simp [hnone, hfind, JsonNumber.is_i64, JsonNumber.is_f64]

/-- C1, witness: the amended priority at concrete inputs — `{int, long}`
binds the integral 5 to Long; `{float, double}` binds a float-represented
number to Double. -/
theorem C1_union_number_priority_witness :
    to_avro (.num (.posInt 5)) (.unionS [.intS, .longS]) = .ok (.long 5) ∧
    to_avro (.num (.float 17)) (.unionS [.floatS, .doubleS]) = .ok (.double 17) := by
  constructor
  · exact (C1_union_number_priority [.intS, .longS] (.posInt 5) 17).1 (by rfl) (by simp)
  · exact (C1_union_number_priority [.floatS, .doubleS] (.posInt 0) 17).2.2.1 (by simp)

/-- C2, counterexample: the mapper iterates the JSON object's keys, not the
record schema's declared fields.  Mapping `{"a": "x"}` against the record
`{a: string, b: union[null, string]}` yields a record with the single field
`a`; no `b` field is produced at all (the claim requires fields `a` and `b`
in schema order, with `b` defaulted via null). -/
theorem C2_counterexample :
    to_avro (.obj [("a", .str "x")])
        (.recordS [("a", .stringS), ("b", .unionS [.nullS, .stringS])]) =
      .ok (.record [("a", AvroValue.str "x")]) ∧
    [("a", AvroValue.str "x")].map Prod.fst ≠ ["a", "b"] := by
  constructor
  · simp [fieldLookup]
  · simp

/-- C2, amended: the record arm iterates the JSON object's entries in the
object's own iteration order: every produced record has exactly the JSON
object's keys, in the JSON object's order (schema fields not present in the
JSON are omitted, so a missing key is not by itself a mapping error), and
every JSON key that the mapping survives is a declared field of the schema
(an undeclared key panics rather than erroring). -/
theorem C2_record_iterates_json_keys (fields : List (String × Schema))
    (entries : List (String × Json)) (ps : List (String × AvroValue))
    (h : to_avro (.obj entries) (.recordS fields) = .ok (.record ps)) :
    ps.map Prod.fst = entries.map Prod.fst ∧
      ∀ kv ∈ entries, (fieldLookup fields kv.1).isSome := by
  rw [to_avro_recordS_entry] at h
  cases hm : entries.mapM (record_entry fields) with
  | error e => rw [hm] at h; cases h
  | ok qs =>
    rw [hm] at h
    rw [except_map_ok] at h
    cases h
    exact record_mapM_keys hm

/-- C2, witness: the amended statement at the concrete record/object of the
counterexample — the produced keys are the JSON keys and each was looked up
among the schema fields. -/
theorem C2_record_iterates_json_keys_witness :
    [("a", AvroValue.str "x")].map Prod.fst = [("a", Json.str "x")].map Prod.fst ∧
      ∀ kv ∈ [("a", Json.str "x")],
        (fieldLookup [("a", Schema.stringS), ("b", Schema.unionS [Schema.nullS, Schema.stringS])]
          kv.1).isSome :=
  C2_record_iterates_json_keys
    [("a", Schema.stringS), ("b", Schema.unionS [Schema.nullS, Schema.stringS])]
    [("a", Json.str "x")] [("a", AvroValue.str "x")] (by simp [fieldLookup])

/-- C3, the claim is right and the code wrong (code_bug): the mapper is
supposed never to abort the process, but a failing array element is
`.unwrap()`ed — a panic, modelled as `MapErr.panic` — and an integral JSON
number beyond the `i32` width is silently saturated to a successful
`Int(2^31 - 1)` instead of yielding a mapping error. -/
theorem C3_panic_and_silent_saturation :
    to_avro (.arr [.str "x"]) (.arrayS .intS) = .error .panic ∧
    to_avro (.num (.posInt (2 ^ 40))) .intS = .ok (.int (2 ^ 31 - 1)) := by
  constructor
  · simp
  · simp [JsonNumber.is_i64, JsonNumber.i64, i64_as_f64_as_i32]

/-- C4: fail-fast with no partial publish.  The whole batch is mapped and
then encoded before `Producer::produce` is reached, so if mapping any line
fails, or encoding any mapped value fails, the run hands nothing at all to
the broker. -/
theorem C4_fail_fast_no_partial_publish (jsons : List Json) (schema : Schema)
    (enc : AvroValue → Except Nat (List Nat)) :
    (∀ j ∈ jsons, ∀ e : MapErr, to_avro j schema = .error e →
      messages_sent jsons schema enc = []) ∧
    (∀ avros, jsons_to_avro jsons schema = .ok avros →
      ∀ a ∈ avros, ∀ ce : Nat, enc a = .error ce →
      messages_sent jsons schema enc = []) := by
  constructor
  · intro j hj e hje
    obtain ⟨e', he'⟩ := mapM_error_of_mem (f := fun j => to_avro j schema) hj hje
    simp only [messages_sent, produce_pipeline, jsons_to_avro, he']
  · intro avros havros a ha ce hce
    obtain ⟨e', he'⟩ := mapM_error_of_mem (f := enc) ha hce
    simp only [messages_sent, produce_pipeline, encode_batch, jsons_to_avro] at havros ⊢
    rw [havros]
    simp only [he']

/-- C4, witness: a one-line batch whose single line fails mapping sends
nothing. -/
theorem C4_fail_fast_witness :
    messages_sent [Json.str "x"] .intS (fun _ => .ok []) = [] :=
  (C4_fail_fast_no_partial_publish [Json.str "x"] .intS (fun _ => .ok [])).1
    (Json.str "x") (by simp) .err (by simp)

/-- C5, counterexample: `collect::<Result<(), _>>` over the lazy recv
iterator short-circuits, so after a negative outcome the remaining
acknowledgments are *not* drained.  With two enqueued messages and outcomes
`[Err 7, Ok]`, the publish step performs exactly one `recv` (not two) before
returning failure. -/
theorem C5_counterexample :
    producer_produce [[0], [1]] (fun _ => .ok ()) [.error 7, .ok ()] =
      some (.error 7, 1) ∧ (1 : Nat) ≠ 2 := by
  constructor
  · rfl
  · simp

/-- C5, amended: with every send accepted, the publish step demands one
delivery outcome per enqueued message and reports success only once all
`N` outcomes are observed positive; on a negative outcome it reports that
failure immediately, having consumed only the outcomes up to and including
the first negative one — the rest are left on the channel, not drained. -/
theorem C5_ack_collection (payloads : List (List Nat)) (send : List Nat → Except Nat Unit)
    (acks : List DeliveryOutcome) (hsend : ∀ p ∈ payloads, send p = .ok ()) :
    (payloads.length ≤ acks.length →
      (∀ o ∈ acks.take payloads.length, o = .ok ()) →
      producer_produce payloads send acks = some (.ok (), payloads.length)) ∧
    (∀ k e, k < payloads.length → (∀ o ∈ acks.take k, o = .ok ()) →
      acks.get? k = some (.error e) →
      producer_produce payloads send acks = some (.error e, k + 1)) := by
  constructor
  · intro hlen hok
    unfold producer_produce
    rw [mapM_unit_ok hsend]
    exact collect_acks_all_ok payloads.length acks hlen hok
  · intro k e hk hok hget
    unfold producer_produce
    rw [mapM_unit_ok hsend]
    exact collect_acks_first_error k payloads.length acks e hk hok hget

/-- C5, witness: two accepted sends with two positive outcomes succeed after
exactly two observed outcomes. -/
theorem C5_ack_collection_witness :
    producer_produce [[0], [1]] (fun _ => .ok ()) [.ok (), .ok ()] =
      some (.ok (), 2) := by
  have h := (C5_ack_collection [[0], [1]] (fun _ => .ok ()) [.ok (), .ok ()]
    (fun p _ => rfl)).1 (by simp)
    (by intro o ho; simp at ho; exact ho)
  simpa using h

/-- C6: framed encoding is one `0x00` magic byte, then the 4-byte big-endian
schema id, then the unframed Avro body unchanged: the total length is
`5 + |body|`, the first byte is zero, bytes 1–4 decode big-endian to the id,
and everything after byte 4 is the body. -/
theorem C6_frame_layout (id : Nat) (b : List Nat) (hid : id < 2 ^ 32) :
    (append_schema_id id b).length = 5 + b.length ∧
    (append_schema_id id b).take 1 = [0] ∧
    beValue (((append_schema_id id b).drop 1).take 4) = id ∧
    (append_schema_id id b).drop 5 = b := by
  refine ⟨?_, ?_, ?_, ?_⟩
  · simp [append_schema_id, u32_to_be_bytes]
    omega
  · simp [append_schema_id, u32_to_be_bytes]
  · simp [append_schema_id, u32_to_be_bytes, beValue]
    omega
  · simp [append_schema_id, u32_to_be_bytes]

/-- C6, witness: the layout at id `0x01020304` and body `[9, 9]`. -/
theorem C6_frame_layout_witness :
    (append_schema_id 16909060 [9, 9]).length = 5 + [9, 9].length ∧
    (append_schema_id 16909060 [9, 9]).take 1 = [0] ∧
    beValue (((append_schema_id 16909060 [9, 9]).drop 1).take 4) = 16909060 ∧
    (append_schema_id 16909060 [9, 9]).drop 5 = [9, 9] :=
  C6_frame_layout 16909060 [9, 9] (by norm_num)

/-- C7, counterexample: the claim says *every* 5xx yields RegistryInternal,
but the code matches the literal status 500 only.  A 502 response (with an
unparseable body) falls through to deserialization and yields `Io`, not
`RegistryInternal`. -/
theorem C7_counterexample :
    do_request ⟨none, 502, "bad gateway"⟩ (fun _ => (.error () : Except Unit Nat)) =
      .error .io ∧
    (RegistryError.io ≠ RegistryError.registryInternal) := by
  constructor
  · rfl
  · intro h
    cases h

/-- C7, amended: on either operation the status dispatch maps 404 to
NotFound, 409 to Conflict, 422 to Invalid, and exactly 500 to
RegistryInternal; any other status — other 5xx codes included — falls
through to response-body deserialization. -/
theorem C7_status_dispatch {T : Type} (body : String) (d : String → Except Unit T) :
    do_request ⟨none, 404, body⟩ d = .error .notFound ∧
    do_request ⟨none, 409, body⟩ d = .error .conflict ∧
    do_request ⟨none, 422, body⟩ d = .error .invalid ∧
    do_request ⟨none, 500, body⟩ d = .error .registryInternal ∧
    do_request ⟨none, 502, body⟩ d = (d body).mapError (fun _ => .io) :=
  ⟨rfl, rfl, rfl, rfl, rfl⟩

/-- C8, counterexample: an integral JSON number is stored by serde_json as
an integer, for which `is_f64()` is false, so mapping `3` against Float or
Double falls through to the catch-all and errors — the claim says it
succeeds for every JSON number. -/
theorem C8_counterexample :
    to_avro (.num (.posInt 3)) .floatS = .error .err ∧
    to_avro (.num (.posInt 3)) .doubleS = .error .err := by
  constructor <;> simp [JsonNumber.is_f64]

/-- C8, amended: mapping against Float/Double succeeds exactly for JSON
numbers represented as floats (source text with a fraction or exponent);
integer-represented numbers yield a mapping error. -/
theorem C8_float_double_mapping (n : JsonNumber) (bits : Nat) :
    to_avro (.num (.float bits)) .floatS = .ok (.float bits) ∧
    to_avro (.num (.float bits)) .doubleS = .ok (.double bits) ∧
    (n.is_f64 = false → to_avro (.num n) .floatS = .error .err) ∧
    (n.is_f64 = false → to_avro (.num n) .doubleS = .error .err) := by
  refine ⟨by simp, by simp, ?_, ?_⟩
  · intro h; simp [h]
  · intro h; simp [h]

/-- C8, witness: a float-represented number maps to Float, the integral 3
errors. -/
theorem C8_float_double_mapping_witness :
    to_avro (.num (.float 5)) .floatS = .ok (.float 5) ∧
    to_avro (.num (.posInt 3)) .floatS = .error .err :=
  ⟨(C8_float_double_mapping (.posInt 3) 5).1,
    (C8_float_double_mapping (.posInt 3) 5).2.2.1 rfl⟩

/-- C9, the claim is right and the code wrong (code_bug): the enum arm of
the mapper is `Err(())` unconditionally, so even a string that *is* one of
the enum's symbols fails, and the unit error carries neither the symbol set
nor the offending string. -/
theorem C9_enum_always_fails :
    to_avro (.str "A") (.enumS ["A", "B"]) = .error .err ∧
    to_avro (.str "C") (.enumS ["A", "B"]) = .error .err := by
  constructor <;> simp

/-- C10, counterexample: JSON null is wrapped into `Union(Null)` without any
check that the union declares a Null branch: the union `[int, string]` has
no null alternative, yet the mapper produces `Union(Null)`. -/
theorem C10_counterexample :
    to_avro .null (.unionS [.intS, .stringS]) = .ok (.union .null) ∧
    Schema.nullS ∉ [Schema.intS, Schema.stringS] := by
  constructor
  · simp
  · simp

/-- C10, amended: only JSON null and boolean produce Union-wrapped values,
and they do so unconditionally, without consulting the union's branches; for
the other JSON kinds the mapper resolves a branch of the matching kind and
returns the mapped value with no Union wrapper at all (shown here for a
string resolving the union's String branch). -/
theorem C10_union_wrapping (branches : List Schema) (b : Bool) (s : String) :
    to_avro .null (.unionS branches) = .ok (.union .null) ∧
    to_avro (.bool b) (.unionS branches) = .ok (.union (.boolean b)) ∧
    (Schema.stringS ∈ branches →
      to_avro (.str s) (.unionS branches) = .ok (.str s)) := by
  refine ⟨by simp, by simp, ?_⟩
  intro hmem
  have hfind := find_schema_eq_of_mem (t := Schema.stringS) (v := .str "") rfl
    (fun sch hs => (kind_stringK_iff sch).mp hs) hmem
  simp [hfind]

/-- C10, witness: a string against `union[null, string]` maps to a bare
(unwrapped) String value. -/
theorem C10_union_wrapping_witness :
    to_avro (.str "x") (.unionS [.nullS, .stringS]) = .ok (.str "x") :=
  (C10_union_wrapping [.nullS, .stringS] true "x").2.2 (by simp)
